import Mathlib

/-!
Shallow embedding of the Siev firmware (repository Debaq/Siev).

Sources:
* `src/hardware/tes_tesis_arduino/tes_tesis_arduino.ino` — the Arduino
  BNO055 firmware: serial command dispatch, pause / VHIT / Euler modes,
  guided calibration wizard, zero offsets, angle normalization.
* `src/hardware/esp8266_siev/esp8266_siev.ino` and `src/unnamed/part_000` —
  the ESP8266 firmware: line-buffered serial parser with a 32-character
  maximum command length, LED handlers, IMU live-stream handlers.

Floats of the firmware are modelled as rationals (ℚ); `millis()` /
`micros()` timestamps as ℕ.  Unsigned 32-bit timer subtraction
`now - before` is modelled by truncated ℕ subtraction, which agrees with
the modular difference whenever `before ≤ now < before + 2^32` — the case
along every real execution, where the stored timer is an earlier reading
of the same monotone clock.
-/

namespace Siev

/-! ## Angle normalization (tes_tesis_arduino.ino, lines 220-224)

```cpp
float normalizeAngle(float angle) {
  while (angle > 180) angle -= 360;
  while (angle < -180) angle += 360;
  return angle;
}
```
-/

/-- First loop of `normalizeAngle`: `while (angle > 180) angle -= 360;`. -/
def subLoop (q : ℚ) : ℚ :=
  if h : 180 < q then subLoop (q - 360) else q
termination_by (⌈q⌉).toNat
decreasing_by
  have h1 : (180 : ℤ) < ⌈q⌉ := by
    rw [Int.lt_ceil]
    exact_mod_cast h
  have h2 : ⌈q - 360⌉ = ⌈q⌉ - 360 := by
    rw [show (360 : ℚ) = ((360 : ℤ) : ℚ) from by norm_num]
    exact Int.ceil_sub_int q 360
  rw [h2]
  omega

/-- Second loop of `normalizeAngle`: `while (angle < -180) angle += 360;`. -/
def addLoop (q : ℚ) : ℚ :=
  if h : q < -180 then addLoop (q + 360) else q
termination_by (-⌊q⌋).toNat
decreasing_by
  have h1 : ⌊q⌋ < -180 := by
    rw [Int.floor_lt]
    exact_mod_cast h
  have h2 : ⌊q + 360⌋ = ⌊q⌋ + 360 := by
    rw [show (360 : ℚ) = ((360 : ℤ) : ℚ) from by norm_num]
    exact Int.floor_add_int q 360
  rw [h2]
  omega

/-- `normalizeAngle` of the Arduino firmware: the two adjustment loops in
sequence. -/
def normalizeAngle (q : ℚ) : ℚ := addLoop (subLoop q)

/-! ## Characters, trimming and integer parsing

`String::trim` of the Arduino core removes leading and trailing `isspace`
characters; `String::toInt` calls `atol`: skip spaces, optional sign, then
a maximal run of digits (0 when there is no digit). -/

/-- `isspace` characters recognised by Arduino `String::trim`. -/
def isWS (c : Char) : Bool :=
  c = ' ' || c = '\t' || c = '\n' || c = '\x0b' || c = '\x0c' || c = '\r'

/-- Strip leading and trailing whitespace, as `command.trim()` does. -/
def trimList (l : List Char) : List Char :=
  ((l.dropWhile isWS).reverse.dropWhile isWS).reverse

/-- Line terminators recognised by both firmwares: CR and LF. -/
def isTerm (c : Char) : Bool := c = '\n' || c = '\r'

/-- Value of a maximal run of leading digits, folded left onto `acc`. -/
def digitsVal : List Char → Nat → Nat
  | [], acc => acc
  | c :: cs, acc => if c.isDigit then digitsVal cs (acc * 10 + (c.toNat - 48)) else acc

/-- Exact (unbounded) value of an `atol`-style parse: skip spaces,
optional sign, maximal run of digits (0 when there is no digit).  The
machine arithmetic wrap is applied on top by `toIntArd`. -/
def atoi (l : List Char) : Int :=
  match l.dropWhile isWS with
  | '-' :: rest => -(digitsVal rest 0 : Int)
  | '+' :: rest => (digitsVal rest 0 : Int)
  | rest => (digitsVal rest 0 : Int)

/-- Two's-complement wrap into the signed 32-bit range
[-2^31, 2^31). -/
def wrap32signed (v : Int) : Int := (v + 2 ^ 31) % 2 ^ 32 - 2 ^ 31

/-- Arduino `String::toInt`, which calls `atol`: the digits accumulate in
a 32-bit `long` with two's-complement wraparound; since reduction mod
2^32 is a ring homomorphism, the wrap of the exact value models the
accumulated result.  The sketch then stores it in `int newDelay`; the
sketch drives its LEDs on pins 12/14 — the GPIO12/GPIO14 wiring of the
ESP8266 SIEV board of this repository — and on that class of target
`int` is also 32 bits, so the narrowing is the identity (a classic AVR
build would narrow further to 16 bits). -/
def toIntArd (l : List Char) : Int := wrap32signed (atoi l)

/-! ## Arduino variant state (tes_tesis_arduino.ino)

Global variables of the sketch, lines 18-37: `inputString`/`stringComplete`
are carried separately by `serialEventRun`; the rest lives in `ArdState`.
LED pins are stored as their output level (`true` = HIGH = LED off). -/

/-- One x/y/z triple read from the BNO055 (orientation, linear
acceleration or angular velocity, depending on use site). -/
structure Orient where
  x : ℚ
  y : ℚ
  z : ℚ
deriving DecidableEq

/-- Everything the sensor supplies during one loop iteration. -/
structure SensorInput where
  orient : Orient
  linAccel : Orient
  angVel : Orient
  calSys : Nat
  calGyro : Nat
  calAccel : Nat
  calMag : Nat
deriving DecidableEq

/-- Mutable globals of the Arduino sketch. -/
structure ArdState where
  isPaused : Bool
  isCalibrating : Bool
  isVHITMode : Bool
  offsetYaw : ℚ
  offsetPitch : ℚ
  offsetRoll : ℚ
  calTimer : Nat
  calStep : Nat
  previousMicros : Nat
  interval : Nat
  led12High : Bool
  led14High : Bool
deriving DecidableEq

/-- Start-up values of the globals (lines 23-37 and `setup`): not paused,
not calibrating, Euler mode, zero offsets, 100000 µs interval, LEDs off
(pins HIGH). -/
def ardInit : ArdState :=
  { isPaused := false, isCalibrating := false, isVHITMode := false
    offsetYaw := 0, offsetPitch := 0, offsetRoll := 0
    calTimer := 0, calStep := 0, previousMicros := 0, interval := 100000
    led12High := true, led14High := true }

/-- `vhitInterval = 2000` µs (500 Hz), line 25. -/
def vhitIntervalUs : Nat := 2000

/-- Protocol responses of the Arduino sketch, one constructor per
distinct `Serial.println` acknowledgment in `processCommand`. -/
inductive Resp
  | helpText
  | led12OnAck
  | led12OffAck
  | led14OnAck
  | led14OffAck
  | modeEulerAck
  | modeVhitAck
  | pausedAck (nowPaused : Bool)
  | calStartedBanner
  | zeroSetAck
  | newIntervalAck (n : Int)
  | delayUnavailableVHIT
deriving DecidableEq

/-! ### Calibration wizard (`handleCalibration`, lines 99-174) -/

/-- State transition of one `handleCalibration` invocation, given
`millis()` and the gyro/accel/mag calibration-quality readings.  The
progress `Serial.print`s do not touch state and are omitted; `calStep`
case 0 resets `calTimer` and keeps waiting while `gyro < 2` (no timeout),
case 1 advances on `accel >= 2` or after 20000 ms, case 2 finishes on
`mag >= 2` or after 30000 ms and clears `isCalibrating`. -/
def handleCalibration (s : ArdState) (now_ms : Nat) (gyro accel mag : Nat) : ArdState :=
  match s.calStep with
  | 0 =>
    if now_ms - s.calTimer < 3000 then s
    else if 2 ≤ gyro then { s with calStep := s.calStep + 1, calTimer := now_ms }
    else { s with calTimer := now_ms }
  | 1 =>
    if 2 ≤ accel || decide (20000 < now_ms - s.calTimer) then
      { s with calStep := s.calStep + 1, calTimer := now_ms }
    else s
  | 2 =>
    if 2 ≤ mag || decide (30000 < now_ms - s.calTimer) then
      { s with isCalibrating := false }
    else s
  | _ => s

/-! ### Telemetry samples (`readAndSendEulerData` lines 176-195,
`readAndSendVHITData` lines 197-218) -/

/-- One emitted telemetry line. -/
inductive Telemetry
  | euler (yaw pitch roll : ℚ)
  | vhit (ax ay az gx gy gz : ℚ)
deriving DecidableEq

/-- The yaw/pitch/roll triple printed by `readAndSendEulerData`: the
negated orientation reading minus the stored offset, each normalized. -/
def eulerSample (s : ArdState) (ev : Orient) : ℚ × ℚ × ℚ :=
  (normalizeAngle (-ev.x - s.offsetYaw),
   normalizeAngle (-ev.y - s.offsetPitch),
   normalizeAngle (-ev.z - s.offsetRoll))

/-- The six raw values printed by `readAndSendVHITData`. -/
def vhitSample (lin ang : Orient) : Telemetry :=
  .vhit lin.x lin.y lin.z ang.x ang.y ang.z

/-! ### Command dispatch (`processCommand`, lines 291-353)

The sketch trims the command once and then walks an if/else chain of
string comparisons; there is no final else, so an unrecognized command is
silently ignored.  `processTrimmed` is the chain, `processCommand` is
trim followed by the chain. -/

/-- The if/else chain of `processCommand` applied to the trimmed command.
`now_ms` is `millis()` (used by the `CAL` branch), `ev` the orientation
event `setZeroPosition` would read (used by the `ZERO` branch).  The
`DELAY_` branch parses with `toIntArd` (wrapping 32-bit `toInt`) and
stores `(unsigned long)newDelay * 1000`, which wraps mod 2^32. -/
def processTrimmed (s : ArdState) (now_ms : Nat) (ev : Orient) (command : List Char) :
    ArdState × List Resp :=
  if command = "-h".toList then (s, [.helpText])
  else if command = "L_12_ON".toList then ({ s with led12High := false }, [.led12OnAck])
  else if command = "L_12_OFF".toList then ({ s with led12High := true }, [.led12OffAck])
  else if command = "L_14_ON".toList then ({ s with led14High := false }, [.led14OnAck])
  else if command = "L_14_OFF".toList then ({ s with led14High := true }, [.led14OffAck])
  else if command = "MODE_EULER".toList then ({ s with isVHITMode := false }, [.modeEulerAck])
  else if command = "MODE_VHIT".toList then ({ s with isVHITMode := true }, [.modeVhitAck])
  else if command = "PAUSE".toList then
    ({ s with isPaused := !s.isPaused }, [.pausedAck (!s.isPaused)])
  else if command = "CAL".toList then
    ({ s with isCalibrating := true, calStep := 0, calTimer := now_ms }, [.calStartedBanner])
  else if command = "ZERO".toList then
    ({ s with offsetYaw := -ev.x, offsetPitch := -ev.y, offsetRoll := -ev.z }, [.zeroSetAck])
  else if "DELAY_".toList.isPrefixOf command then
    if s.isVHITMode = false then
      if 0 < toIntArd (command.drop 6) then
        ({ s with interval := ((toIntArd (command.drop 6)).toNat * 1000) % 2 ^ 32 },
         [.newIntervalAck (toIntArd (command.drop 6))])
      else (s, [])
    else (s, [.delayUnavailableVHIT])
  else (s, [])

/-- `processCommand`: `command.trim()` then the dispatch chain. -/
def processCommand (s : ArdState) (now_ms : Nat) (ev : Orient) (command : List Char) :
    ArdState × List Resp :=
  processTrimmed s now_ms ev (trimList command)

/-! ### The control loop (`loop`, lines 75-97) and `serialEvent`
(lines 280-289) -/

/-- The calibration/telemetry part of one `loop` iteration (after the
command, if any, was processed): run the wizard while calibrating, else
if not paused and the elapsed `micros()` reach the active interval, reset
`previousMicros` to now and emit one sample in the active format. -/
def loopTick (s : ArdState) (now_us now_ms : Nat) (inp : SensorInput) :
    ArdState × Option Telemetry :=
  if s.isCalibrating then
    (handleCalibration s now_ms inp.calGyro inp.calAccel inp.calMag, none)
  else if s.isPaused = false then
    if (if s.isVHITMode then vhitIntervalUs else s.interval) ≤ now_us - s.previousMicros then
      ({ s with previousMicros := now_us },
       some (if s.isVHITMode then vhitSample inp.linAccel inp.angVel
             else match eulerSample s inp.orient with
                  | (y, p, r) => .euler y p r))
    else (s, none)
  else (s, none)

/-- One full `loop` iteration: when `stringComplete` left a pending line,
process it as a single command, then run `loopTick`.  The middle
component lists the commands dispatched this iteration. -/
def loopIter (s : ArdState) (pending : Option (List Char)) (now_us now_ms : Nat)
    (inp : SensorInput) : ArdState × List (List Char) × Option Telemetry :=
  match pending with
  | some cmd =>
    ((loopTick (processCommand s now_ms inp.orient cmd).1 now_us now_ms inp).1, [cmd],
     (loopTick (processCommand s now_ms inp.orient cmd).1 now_us now_ms inp).2)
  | none =>
    ((loopTick s now_us now_ms inp).1, [], (loopTick s now_us now_ms inp).2)

/-- `serialEvent` (lines 280-289): drain the available bytes; a CR or LF
sets `stringComplete`, every other byte is appended to `inputString` —
note that bytes after a terminator keep accumulating into the same
string. -/
def serialEventRun : List Char × Bool → List Char → List Char × Bool
  | st, [] => st
  | (buf, done), c :: cs =>
    if isTerm c then serialEventRun (buf, true) cs
    else serialEventRun (buf ++ [c], done) cs

/-! ### Concrete fixtures for runs and witnesses -/

/-- A zero orientation reading. -/
def orient0 : Orient := { x := 0, y := 0, z := 0 }

/-- Sensor input with all readings and all calibration qualities zero. -/
def inpZero : SensorInput :=
  { orient := orient0, linAccel := orient0, angVel := orient0
    calSys := 0, calGyro := 0, calAccel := 0, calMag := 0 }

/-- Run starting with the `CAL` command at time 0 and then one loop
iteration per second, with every calibration-quality reading stuck at 0:
the quality thresholds are never reached. -/
def calRunZero : Nat → ArdState
  | 0 => (processCommand ardInit 0 orient0 ("CAL".toList)).1
  | n + 1 => (loopTick (calRunZero n) ((n + 1) * 1000000) ((n + 1) * 1000) inpZero).1

/-! ## ESP8266 variant (esp8266_siev.ino and src/unnamed/part_000)

Globals lines 184-199 of esp8266_siev.ino; the LED output pins are again
stored as their level (`true` = HIGH = LED off, the outputs are
active-low). -/

/-- Mutable globals of the ESP8266 firmware that the studied handlers
touch. -/
structure EspState where
  imuInitialized : Bool
  imuLiveMode : Bool
  lastIMURead : Nat
  leftLedState : Bool
  rightLedState : Bool
  leftPinHigh : Bool
  rightPinHigh : Bool
deriving DecidableEq

/-- ESP state right after `setup`: LEDs off (pins HIGH), no live stream. -/
def espInit : EspState :=
  { imuInitialized := true, imuLiveMode := false, lastIMURead := 0
    leftLedState := false, rightLedState := false
    leftPinHigh := true, rightPinHigh := true }

/-- Responses of the ESP8266 handlers under study. -/
inductive EspResp
  | errLiveNotActive
  | liveStopped
  | errInvalidLedCommand
  | errInvalidLedTarget (target : List Char)
  | ledAck (turnOn : Bool) (target : List Char)
deriving DecidableEq

/-- `handleIMULiveOff` (esp8266_siev.ino lines 614-622, part_000 lines
652-660): while not streaming answer `ERROR:IMU_LIVE_NOT_ACTIVE` and
return; otherwise clear `imuLiveMode` and answer `IMU_LIVE:STOPPED`. -/
def handleIMULiveOff (s : EspState) : EspState × List EspResp :=
  if s.imuLiveMode = false then (s, [.errLiveNotActive])
  else ({ s with imuLiveMode := false }, [.liveStopped])

/-- `command.indexOf(':')`: position of the first colon, `none` for the
C++ sentinel `-1`. -/
def colonIdx (l : List Char) : Option Nat := l.findIdx? (fun c => c = ':')

/-- `handleLedCommand` (part_000 lines 544-574): take the text after the
first colon as target; `LEFT`/`RIGHT`/`BOTH` drive the active-low pins
and the state booleans, anything else answers
`ERROR:INVALID_LED_TARGET:<target>` and changes nothing. -/
def handleLedCommand (s : EspState) (command : List Char) (turnOn : Bool) :
    EspState × List EspResp :=
  match colonIdx command with
  | none => (s, [.errInvalidLedCommand])
  | some i =>
    if command.drop (i + 1) = "LEFT".toList then
      ({ s with leftPinHigh := !turnOn, leftLedState := turnOn },
       [.ledAck turnOn (command.drop (i + 1))])
    else if command.drop (i + 1) = "RIGHT".toList then
      ({ s with rightPinHigh := !turnOn, rightLedState := turnOn },
       [.ledAck turnOn (command.drop (i + 1))])
    else if command.drop (i + 1) = "BOTH".toList then
      ({ s with leftPinHigh := !turnOn, rightPinHigh := !turnOn,
                leftLedState := turnOn, rightLedState := turnOn },
       [.ledAck turnOn (command.drop (i + 1))])
    else (s, [.errInvalidLedTarget (command.drop (i + 1))])

/-- `MAX_COMMAND_LENGTH` of both ESP variants. -/
def maxCommandLength : Nat := 32

/-- Serial-parser events of `processSerialCommands`: an
`ERROR:COMMAND_TOO_LONG` report, or a buffered line handed to
`processCommand`. -/
inductive SerialOut
  | tooLong
  | dispatched (line : List Char)
deriving DecidableEq

/-- `processSerialCommands` (esp8266_siev.ino lines 281-299, part_000
lines 396-414) run over the available bytes, carrying `inputBuffer`:
a terminator dispatches a non-empty buffer and clears it; a data byte is
appended while the buffer holds fewer than `MAX_COMMAND_LENGTH - 1`
characters; otherwise the buffer is cleared and `ERROR:COMMAND_TOO_LONG`
is printed — and subsequent bytes accumulate afresh. -/
def processSerialCommands (buf : List Char) : List Char → List Char × List SerialOut
  | [] => (buf, [])
  | c :: cs =>
    if isTerm c then
      if 0 < buf.length then
        ((processSerialCommands [] cs).1,
         SerialOut.dispatched buf :: (processSerialCommands [] cs).2)
      else processSerialCommands buf cs
    else if buf.length < maxCommandLength - 1 then
      processSerialCommands (buf ++ [c]) cs
    else
      ((processSerialCommands [] cs).1, SerialOut.tooLong :: (processSerialCommands [] cs).2)

/-! ## Helper lemmas -/

theorem subLoop_le (q : ℚ) : subLoop q ≤ 180 := by
  generalize hn : (⌈q⌉).toNat = n
  induction n using Nat.strong_induction_on generalizing q with
  | _ n ih =>
    rw [subLoop]
    split
    next h =>
      refine ih (⌈q - 360⌉).toNat ?_ (q - 360) rfl
      subst hn
      have h1 : (180 : ℤ) < ⌈q⌉ := by
        rw [Int.lt_ceil]
        exact_mod_cast h
      have h2 : ⌈q - 360⌉ = ⌈q⌉ - 360 := by
        rw [show (360 : ℚ) = ((360 : ℤ) : ℚ) from by norm_num]
        exact Int.ceil_sub_int q 360
      rw [h2]
      omega
    next h => linarith [not_lt.mp h]

theorem subLoop_id (q : ℚ) (h : q ≤ 180) : subLoop q = q := by
  rw [subLoop]
  exact dif_neg (not_lt.mpr h)

theorem addLoop_ge (q : ℚ) : -180 ≤ addLoop q := by
  generalize hn : (-⌊q⌋).toNat = n
  induction n using Nat.strong_induction_on generalizing q with
  | _ n ih =>
    rw [addLoop]
    split
    next h =>
      refine ih (-⌊q + 360⌋).toNat ?_ (q + 360) rfl
      subst hn
      have h1 : ⌊q⌋ < -180 := by
        rw [Int.floor_lt]
        exact_mod_cast h
      have h2 : ⌊q + 360⌋ = ⌊q⌋ + 360 := by
        rw [show (360 : ℚ) = ((360 : ℤ) : ℚ) from by norm_num]
        exact Int.floor_add_int q 360
      rw [h2]
      omega
    next h => linarith [not_lt.mp h]

theorem addLoop_le (q : ℚ) (hq : q ≤ 180) : addLoop q ≤ 180 := by
  generalize hn : (-⌊q⌋).toNat = n
  induction n using Nat.strong_induction_on generalizing q with
  | _ n ih =>
    rw [addLoop]
    split
    next h =>
      refine ih (-⌊q + 360⌋).toNat ?_ (q + 360) (by linarith) rfl
      subst hn
      have h1 : ⌊q⌋ < -180 := by
        rw [Int.floor_lt]
        exact_mod_cast h
      have h2 : ⌊q + 360⌋ = ⌊q⌋ + 360 := by
        rw [show (360 : ℚ) = ((360 : ℤ) : ℚ) from by norm_num]
        exact Int.floor_add_int q 360
      rw [h2]
      omega
    next h => exact hq

theorem addLoop_id (q : ℚ) (h : -180 ≤ q) : addLoop q = q := by
  rw [addLoop]
  exact dif_neg (not_lt.mpr h)

theorem normalizeAngle_mem (q : ℚ) :
    -180 ≤ normalizeAngle q ∧ normalizeAngle q ≤ 180 :=
  ⟨addLoop_ge _, addLoop_le _ (subLoop_le q)⟩

theorem normalizeAngle_id (q : ℚ) (h1 : -180 ≤ q) (h2 : q ≤ 180) :
    normalizeAngle q = q := by
  unfold normalizeAngle
  rw [subLoop_id q h2, addLoop_id q h1]

theorem dropWhile_all_false (p : Char → Bool) :
    ∀ l : List Char, (∀ c ∈ l, p c = false) → l.dropWhile p = l
  | [], _ => rfl
  | c :: cs, h => by
    rw [List.dropWhile_cons, h c (List.mem_cons_self c cs)]
    simp

theorem trimList_eq_self (l : List Char) (h : ∀ c ∈ l, isWS c = false) :
    trimList l = l := by
  unfold trimList
  rw [dropWhile_all_false isWS l h,
      dropWhile_all_false isWS l.reverse (fun c hc => h c (List.mem_reverse.mp hc)),
      List.reverse_reverse]

theorem serialEventRun_spec :
    ∀ (input : List Char) (buf : List Char) (done : Bool),
      serialEventRun (buf, done) input =
        (buf ++ input.filter (fun c => !isTerm c), done || input.any isTerm)
  | [], buf, done => by simp [serialEventRun]
  | c :: cs, buf, done => by
    by_cases h : isTerm c
    · simp [serialEventRun, h, serialEventRun_spec cs buf true]
    · simp only [serialEventRun, h]
      rw [serialEventRun_spec cs (buf ++ [c]) done]
      simp [h]

theorem psc_append :
    ∀ (xs ys buf : List Char),
      processSerialCommands buf (xs ++ ys) =
        ((processSerialCommands (processSerialCommands buf xs).1 ys).1,
         (processSerialCommands buf xs).2 ++
           (processSerialCommands (processSerialCommands buf xs).1 ys).2)
  | [], ys, buf => by simp [processSerialCommands]
  | c :: cs, ys, buf => by
    by_cases h1 : isTerm c
    · by_cases h2 : 0 < buf.length
      · simp [processSerialCommands, h1, h2, psc_append cs ys]
      · simp [processSerialCommands, h1, h2, psc_append cs ys buf]
    · by_cases h3 : buf.length < maxCommandLength - 1
      · simp [processSerialCommands, h1, h3, psc_append cs ys (buf ++ [c])]
      · simp [processSerialCommands, h1, h3, psc_append cs ys]

theorem psc_no_overflow (cs : List Char) :
    ∀ buf : List Char, (∀ c ∈ cs, isTerm c = false) →
      buf.length + cs.length ≤ maxCommandLength - 1 →
      processSerialCommands buf cs = (buf ++ cs, []) := by
  induction cs with
  | nil => intro buf _ _; simp [processSerialCommands]
  | cons c cs ih =>
    intro buf hterm hlen
    have hc : isTerm c = false := hterm c (List.mem_cons_self c cs)
    have hfits : buf.length < maxCommandLength - 1 := by
      simp [List.length_cons] at hlen
      omega
    rw [processSerialCommands]
    simp only [hc, Bool.false_eq_true, if_false, hfits, if_true]
    rw [ih (buf ++ [c]) (fun d hd => hterm d (List.mem_cons_of_mem c hd))
        (by simp at hlen ⊢; omega)]
    simp

/-! ## Claim theorems -/

/-- C1 (amended): within one calibration session, `calStep` is
monotonically non-decreasing under every `handleCalibration` invocation,
the GYRO phase advances once the 3 s settle has elapsed and gyro quality
reaches 2, and the ACCEL and MAG phases terminate within their 20 s and
30 s ceilings regardless of quality; but the GYRO phase itself has no
timeout, so the original claim's unconditional termination does not
hold. -/
theorem calibration_monotone_and_phase_timeouts :
    ∀ (s : ArdState) (now g a m : Nat),
      s.calStep ≤ (handleCalibration s now g a m).calStep
      ∧ (s.calStep = 0 → ¬ now - s.calTimer < 3000 → 2 ≤ g →
          (handleCalibration s now g a m).calStep = 1)
      ∧ (s.calStep = 1 → 20000 < now - s.calTimer →
          (handleCalibration s now g a m).calStep = 2)
      ∧ (s.calStep = 2 → 30000 < now - s.calTimer →
          (handleCalibration s now g a m).isCalibrating = false) := by
  intro s now g a m
  obtain ⟨p1, c1, v1, q1, q2, q3, ct, cstep, pm, iv, d1, d2⟩ := s
  rcases cstep with _ | _ | _ | k <;>
    refine ⟨?_, ?_, ?_, ?_⟩ <;>
    simp [handleCalibration] <;>
    split_ifs <;>
    simp_all

/-- C1 witness: an ACCEL-phase state whose timer is 30 s in the past
advances to the MAG phase even with zero quality readings. -/
theorem calibration_monotone_and_phase_timeouts_witness :
    (handleCalibration { ardInit with isCalibrating := true, calStep := 1, calTimer := 0 }
        30000 0 0 0).calStep = 2 :=
  (calibration_monotone_and_phase_timeouts
    { ardInit with isCalibrating := true, calStep := 1, calTimer := 0 }
    30000 0 0 0).2.2.1 rfl (by decide)

set_option maxRecDepth 100000 in
/-- C1 counterexample: start a session with `CAL` at time 0 and run one
loop iteration per second for 60 seconds — longer than the sum of every
stated phase timeout (3 s settle + 20 s + 30 s) — with all quality
readings stuck at 0: the session is still active and still in the GYRO
phase, because `handleCalibration`'s case 0 has no timeout path.  This
refutes the claim that the session always terminates within the stated
timeouts even when the quality thresholds are never reached. -/
theorem calibration_never_ends_without_gyro_quality :
    (calRunZero 60).isCalibrating = true ∧ (calRunZero 60).calStep = 0 := by
  constructor <;> decide

/-- C2 (amended): feeding the parser an unterminated run of `n`
non-terminator characters (32 ≤ n ≤ 63) from an empty buffer emits
exactly one `ERROR:COMMAND_TOO_LONG` and leaves the buffer holding the
tail beyond the first 32 characters — so an oversized line's tail leaks
into the next command instead of being discarded (after the error at the
32nd byte the buffer re-fills, and only a 64th data byte would fire a
second length error). -/
theorem oversized_line_one_error_and_tail :
    ∀ cs : List Char, (∀ c ∈ cs, isTerm c = false) →
      32 ≤ cs.length → cs.length ≤ 63 →
      processSerialCommands [] cs = (cs.drop 32, [SerialOut.tooLong]) := by
  intro cs hterm h32 h63
  have hsplit : cs.take 31 ++ cs.drop 31 = cs := List.take_append_drop 31 cs
  obtain ⟨c, rest, hdrop⟩ : ∃ c rest, cs.drop 31 = c :: rest := by
    cases h : cs.drop 31 with
    | nil =>
      exfalso
      have hl := List.length_drop 31 cs
      rw [h] at hl
      simp at hl
      omega
    | cons c rest => exact ⟨c, rest, rfl⟩
  have hrest : rest = cs.drop 32 := by
    have ht : (cs.drop 31).tail = cs.drop 32 := by
      rw [List.tail_drop]
    rw [hdrop] at ht
    simpa using ht
  have htake_len : (cs.take 31).length = 31 := by
    rw [List.length_take]
    omega
  have htake_term : ∀ d ∈ cs.take 31, isTerm d = false :=
    fun d hd => hterm d (List.take_subset 31 cs hd)
  have hc_term : isTerm c = false := by
    have : c ∈ cs.drop 31 := by rw [hdrop]; exact List.mem_cons_self c rest
    exact hterm c (List.drop_subset 31 cs this)
  have hrest_term : ∀ d ∈ rest, isTerm d = false := by
    intro d hd
    have : d ∈ cs.drop 31 := by rw [hdrop]; exact List.mem_cons_of_mem c hd
    exact hterm d (List.drop_subset 31 cs this)
  have hrest_len : rest.length ≤ 31 := by
    have := List.length_drop 32 cs
    rw [← hrest] at this
    omega
  have e1 : processSerialCommands [] (cs.take 31) = (cs.take 31, []) := by
    simpa using psc_no_overflow (cs.take 31) [] htake_term
      (by simp [htake_len, maxCommandLength])
  have e2 : processSerialCommands (cs.take 31) (c :: rest) = (rest, [SerialOut.tooLong]) := by
    rw [processSerialCommands]
    simp only [hc_term, Bool.false_eq_true, if_false, htake_len,
      show ¬(31 < maxCommandLength - 1) from by simp [maxCommandLength], if_false]
    rw [psc_no_overflow rest [] hrest_term (by simp [maxCommandLength]; omega)]
    simp
  conv_lhs => rw [← hsplit, hdrop]
  rw [psc_append, e1]
  simp only []
  rw [e2]
  simp [hrest]

/-- C2 witness: the amended statement evaluated on the spec's own
scenario, an unterminated 40-character line: one length error, and the
8-character tail sits in the buffer. -/
theorem oversized_line_one_error_and_tail_witness :
    processSerialCommands [] (List.replicate 40 'A') =
      ((List.replicate 40 'A').drop 32, [SerialOut.tooLong]) :=
  oversized_line_one_error_and_tail (List.replicate 40 'A') (by decide) (by decide) (by decide)

/-- C2 counterexample: after an unterminated 40-character line the parser
buffer is NOT empty — it holds the last 8 characters, which will prefix
the next command.  This refutes the claim that the buffer is empty after
processing an oversized line. -/
theorem oversized_line_buffer_not_empty :
    (processSerialCommands [] (List.replicate 40 'A')).1 = List.replicate 8 'A'
    ∧ List.replicate 8 'A' ≠ ([] : List Char) := by
  constructor <;> decide

/-- C3 (amended): in Euler mode the argument of `DELAY_<n>` is parsed as
a wrapping 32-bit signed value w = `toIntArd`; when w > 0 the interval is
set to (w·1000) mod 2^32 µs and acknowledged — which is exactly n
milliseconds whenever n parses without wrap and n·1000 < 2^32 (n ≤
4294967), but wraps for larger n (e.g. `DELAY_5000000` stores 705032704
µs, not 5·10^9); when w ≤ 0 (including `DELAY_0` and negative or
wrapped-negative arguments) the command is silently ignored — no
response at all and no mutation, not the claimed error response; in VHIT
mode it is rejected with an error response and no mutation. -/
theorem delay_command_cases :
    ∀ (s : ArdState) (now : Nat) (ev : Orient) (arg : List Char),
      (∀ c ∈ arg, isWS c = false) →
      ((s.isVHITMode = false → 0 < toIntArd arg →
          processCommand s now ev ("DELAY_".toList ++ arg) =
            ({ s with interval := ((toIntArd arg).toNat * 1000) % 2 ^ 32 },
             [Resp.newIntervalAck (toIntArd arg)]))
       ∧ (s.isVHITMode = false → 0 < toIntArd arg → (toIntArd arg).toNat * 1000 < 2 ^ 32 →
          (processCommand s now ev ("DELAY_".toList ++ arg)).1.interval =
            (toIntArd arg).toNat * 1000)
       ∧ (s.isVHITMode = false → toIntArd arg ≤ 0 →
          processCommand s now ev ("DELAY_".toList ++ arg) = (s, []))
       ∧ (s.isVHITMode = true →
          processCommand s now ev ("DELAY_".toList ++ arg) =
            (s, [Resp.delayUnavailableVHIT]))) := by
  intro s now ev arg hws
  have htrim : trimList ("DELAY_".toList ++ arg) = "DELAY_".toList ++ arg := by
    refine trimList_eq_self _ ?_
    intro c hc
    rcases List.mem_append.mp hc with h | h
    · exact (by decide : ∀ c ∈ "DELAY_".toList, isWS c = false) c h
    · exact hws c h
  have hstep : processCommand s now ev ("DELAY_".toList ++ arg) =
      processTrimmed s now ev ("DELAY_".toList ++ arg) := by
    rw [processCommand, htrim]
  have hconv : ("DELAY_".toList ++ arg : List Char) =
      'D' :: 'E' :: 'L' :: 'A' :: 'Y' :: '_' :: arg := rfl
  have hbranch : processTrimmed s now ev ('D' :: 'E' :: 'L' :: 'A' :: 'Y' :: '_' :: arg) =
      (if s.isVHITMode = false then
        (if 0 < toIntArd arg then
          ({ s with interval := ((toIntArd arg).toNat * 1000) % 2 ^ 32 },
           [Resp.newIntervalAck (toIntArd arg)])
         else (s, []))
       else (s, [Resp.delayUnavailableVHIT])) := by
    simp [processTrimmed, List.isPrefixOf_cons₂]
  refine ⟨?_, ?_, ?_, ?_⟩
  · intro hv hn
    rw [hstep, hconv, hbranch, if_pos hv, if_pos hn]
  · intro hv hn hsmall
    rw [hstep, hconv, hbranch, if_pos hv, if_pos hn]
    exact Nat.mod_eq_of_lt hsmall
  · intro hv hn
    rw [hstep, hconv, hbranch, if_pos hv, if_neg (not_lt.mpr hn)]
  · intro hv
    rw [hstep, hconv, hbranch, if_neg (by rw [hv]; simp)]

/-- C3 witness: `DELAY_50` in Euler mode sets the interval to exactly
50000 µs (50 ms) and acknowledges, while `DELAY_5000000` exhibits the
mod-2^32 wrap of `(unsigned long)newDelay * 1000` and stores 705032704
µs. -/
theorem delay_command_cases_witness :
    processCommand ardInit 0 orient0 ("DELAY_".toList ++ "50".toList) =
      ({ ardInit with interval := 50000 }, [Resp.newIntervalAck 50])
    ∧ processCommand ardInit 0 orient0 ("DELAY_".toList ++ "5000000".toList) =
      ({ ardInit with interval := 705032704 }, [Resp.newIntervalAck 5000000]) := by
  constructor
  · have h := (delay_command_cases ardInit 0 orient0 ("50".toList) (by decide)).1
      rfl (by decide)
    exact h.trans (by decide)
  · have h := (delay_command_cases ardInit 0 orient0 ("5000000".toList) (by decide)).1
      rfl (by decide)
    exact h.trans (by decide)

/-- C3 counterexample: `DELAY_0` in Euler mode produces NO response at
all (the inner `if (newDelay > 0)` has no else branch) and leaves the
state unchanged — refuting the claim that n ≤ 0 is rejected WITH an
error response. -/
theorem delay_zero_silently_ignored :
    processCommand ardInit 0 orient0 ("DELAY_0".toList) = (ardInit, []) := by
  decide

/-- C4 (amended): `MODE_VHIT` / `MODE_EULER` set only `isVHITMode` and
acknowledge; every other field — in particular the telemetry clock
`previousMicros` — is left unchanged, so the scheduler's next emission
decision is taken against the pre-switch timestamp, not a freshly reset
cadence. -/
theorem mode_commands_set_format_only :
    ∀ (s : ArdState) (now : Nat) (ev : Orient),
      processCommand s now ev ("MODE_VHIT".toList) =
        ({ s with isVHITMode := true }, [Resp.modeVhitAck])
      ∧ processCommand s now ev ("MODE_EULER".toList) =
        ({ s with isVHITMode := false }, [Resp.modeEulerAck]) :=
  fun _ _ _ => ⟨rfl, rfl⟩

/-- C4 counterexample: with `previousMicros = 5`, processing `MODE_VHIT`
leaves `previousMicros = 5` (no reset), and the very next scheduler tick
at 1001000 µs emits immediately against the stale timestamp — whereas a
clock actually reset at the switch (1000000 µs) would emit nothing.  This
refutes the claim that the mode commands reset the telemetry clock. -/
theorem mode_switch_keeps_previousMicros :
    (processCommand { ardInit with previousMicros := 5 } 1000 orient0
        ("MODE_VHIT".toList)).1.previousMicros = 5
    ∧ (loopTick (processCommand { ardInit with previousMicros := 5 } 1000 orient0
        ("MODE_VHIT".toList)).1 1001000 1001 inpZero).2 ≠ none
    ∧ (loopTick { (processCommand { ardInit with previousMicros := 5 } 1000 orient0
        ("MODE_VHIT".toList)).1 with previousMicros := 1000000 } 1001000 1001 inpZero).2
        = none := by
  refine ⟨?_, ?_, ?_⟩ <;> decide

/-- C5 (amended): `normalizeAngle` is total (it is a function defined by
well-founded recursion over ℚ) and idempotent, and its range is the
CLOSED interval [-180, 180] — not the half-open (-180, 180] the claim
states. -/
theorem normalizeAngle_total_and_idempotent :
    ∀ q : ℚ, normalizeAngle q ∈ Set.Icc (-180 : ℚ) 180
      ∧ normalizeAngle (normalizeAngle q) = normalizeAngle q :=
  fun q =>
    ⟨Set.mem_Icc.mpr (normalizeAngle_mem q),
     normalizeAngle_id _ (normalizeAngle_mem q).1 (normalizeAngle_mem q).2⟩

/-- C5 counterexample: `normalizeAngle (-180) = -180`, and -180 is not in
the claimed interval (-180, 180] — the second loop's guard is
`angle < -180`, so exact -180 passes through unadjusted. -/
theorem normalizeAngle_at_neg180 :
    normalizeAngle (-180 : ℚ) = -180
    ∧ (-180 : ℚ) ∉ Set.Ioc (-180 : ℚ) 180 := by
  constructor
  · unfold normalizeAngle
    rw [subLoop_id _ (by norm_num), addLoop_id _ (by norm_num)]
  · simp

/-- C6: in every loop iteration no telemetry is emitted while
`isCalibrating` is set, none is emitted while `isPaused` is set, and two
`PAUSE` commands in a row restore the complete device state (PAUSE
touches nothing but the flag). -/
theorem telemetry_suppression_and_pause_toggle :
    ∀ (s : ArdState) (now_us now_ms : Nat) (inp : SensorInput) (t : Nat) (ev : Orient),
      (s.isCalibrating = true → (loopTick s now_us now_ms inp).2 = none)
      ∧ (s.isPaused = true → (loopTick s now_us now_ms inp).2 = none)
      ∧ (processCommand (processCommand s t ev ("PAUSE".toList)).1 t ev
          ("PAUSE".toList)).1 = s := by
  intro s now_us now_ms inp t ev
  refine ⟨?_, ?_, ?_⟩
  · intro h
    simp [loopTick, h]
  · intro h
    cases hc : s.isCalibrating <;> simp [loopTick, hc, h]
  · have hp : ∀ u : ArdState, (processCommand u t ev ("PAUSE".toList)).1 =
        { u with isPaused := !u.isPaused } := fun u => rfl
    rw [hp, hp]
    simp

/-- C6 witness: concrete calibrating and paused states emit no
telemetry. -/
theorem telemetry_suppression_and_pause_toggle_witness :
    (loopTick { ardInit with isCalibrating := true } 0 0 inpZero).2 = none
    ∧ (loopTick { ardInit with isPaused := true } 0 0 inpZero).2 = none :=
  ⟨(telemetry_suppression_and_pause_toggle { ardInit with isCalibrating := true }
      0 0 inpZero 0 orient0).1 rfl,
   (telemetry_suppression_and_pause_toggle { ardInit with isPaused := true }
      0 0 inpZero 0 orient0).2.1 rfl⟩

/-- C7: zero-offset round-trip — after `ZERO` at orientation reading
`ev`, an Euler sample at the same reading is exactly (0, 0, 0), for every
prior state and every reading. -/
theorem zero_offset_roundtrip :
    ∀ (s : ArdState) (now : Nat) (ev : Orient),
      eulerSample (processCommand s now ev ("ZERO".toList)).1 ev = (0, 0, 0) := by
  intro s now ev
  have h : (processCommand s now ev ("ZERO".toList)).1 =
      { s with offsetYaw := -ev.x, offsetPitch := -ev.y, offsetRoll := -ev.z } := rfl
  have hz : ∀ a : ℚ, -a - -a = 0 := fun a => by ring
  rw [h]
  simp [eulerSample, hz, normalizeAngle_id 0 (by norm_num) (by norm_num)]

/-- C8: `IMU_READ_LIVE_OFF` while not streaming answers exactly one
explicit `ERROR:IMU_LIVE_NOT_ACTIVE` and changes nothing; while streaming
it clears `imuLiveMode` and acknowledges `IMU_LIVE:STOPPED`. -/
theorem imu_live_off_cases :
    ∀ s : EspState,
      (s.imuLiveMode = false → handleIMULiveOff s = (s, [EspResp.errLiveNotActive]))
      ∧ (s.imuLiveMode = true →
          handleIMULiveOff s = ({ s with imuLiveMode := false }, [EspResp.liveStopped])) :=
  fun s =>
    ⟨fun h => by simp [handleIMULiveOff, h],
     fun h => by simp [handleIMULiveOff, h]⟩

/-- C8 witness: both cases evaluated at concrete states. -/
theorem imu_live_off_cases_witness :
    handleIMULiveOff espInit = (espInit, [EspResp.errLiveNotActive])
    ∧ handleIMULiveOff { espInit with imuLiveMode := true } =
        ({ espInit with imuLiveMode := false }, [EspResp.liveStopped]) :=
  ⟨(imu_live_off_cases espInit).1 rfl,
   ((imu_live_off_cases { espInit with imuLiveMode := true }).2 rfl).trans (by decide)⟩

/-- C9: when two newline-terminated lines arrive within one `serialEvent`
drain, all their characters accumulate into ONE command string (the
terminators only set `stringComplete`), and each loop iteration
dispatches at most one command. -/
theorem serial_event_accumulates_lines :
    ∀ l1 l2 : List Char,
      (∀ c ∈ l1, isTerm c = false) → (∀ c ∈ l2, isTerm c = false) →
      serialEventRun ([], false) (l1 ++ '\n' :: (l2 ++ ['\n'])) = (l1 ++ l2, true)
      ∧ ∀ (s : ArdState) (p : Option (List Char)) (now_us now_ms : Nat) (inp : SensorInput),
          (loopIter s p now_us now_ms inp).2.1.length ≤ 1 := by
  intro l1 l2 h1 h2
  constructor
  · rw [serialEventRun_spec]
    have e1 : l1.filter (fun c => !isTerm c) = l1 :=
      List.filter_eq_self.mpr (fun a ha => by simp [h1 a ha])
    have e2 : l2.filter (fun c => !isTerm c) = l2 :=
      List.filter_eq_self.mpr (fun a ha => by simp [h2 a ha])
    have hnl : isTerm '\n' = true := rfl
    simp [List.filter_append, List.filter_cons, e1, e2, hnl]
  · intro s p now_us now_ms inp
    cases p <;> simp [loopIter]

/-- C9 witness: the lines `AB` and `CD` merge into the single command
`ABCD`, and a concrete loop iteration dispatches at most one command. -/
theorem serial_event_accumulates_lines_witness :
    serialEventRun ([], false) ("AB".toList ++ '\n' :: ("CD".toList ++ ['\n'])) =
      ("AB".toList ++ "CD".toList, true)
    ∧ (loopIter ardInit none 0 0 inpZero).2.1.length ≤ 1 :=
  ⟨(serial_event_accumulates_lines ("AB".toList) ("CD".toList) (by decide) (by decide)).1,
   (serial_event_accumulates_lines ("AB".toList) ("CD".toList) (by decide) (by decide)).2
     ardInit none 0 0 inpZero⟩

/-- C10: an LED command whose target after the colon is none of LEFT /
RIGHT / BOTH answers exactly one `ERROR:INVALID_LED_TARGET:<target>` and
leaves the whole state — LED state booleans and output pins included —
unchanged. -/
theorem led_invalid_target_frame :
    ∀ (s : EspState) (cmd : List Char) (turnOn : Bool) (i : Nat),
      colonIdx cmd = some i →
      cmd.drop (i + 1) ≠ "LEFT".toList →
      cmd.drop (i + 1) ≠ "RIGHT".toList →
      cmd.drop (i + 1) ≠ "BOTH".toList →
      handleLedCommand s cmd turnOn = (s, [EspResp.errInvalidLedTarget (cmd.drop (i + 1))]) := by
  intro s cmd turnOn i hi h1 h2 h3
  simp only [handleLedCommand, hi]
  rw [if_neg h1, if_neg h2, if_neg h3]

/-- C10 witness: `LED_ON:XYZ` at the start-up state — only the invalid
target error, state untouched. -/
theorem led_invalid_target_frame_witness :
    handleLedCommand espInit ("LED_ON:XYZ".toList) true =
      (espInit, [EspResp.errInvalidLedTarget ("XYZ".toList)]) := by
  have h := led_invalid_target_frame espInit ("LED_ON:XYZ".toList) true 6
    (by decide) (by decide) (by decide) (by decide)
  exact h.trans (by decide)

end Siev
